import Mathlib

/-!
Verification of `src/daemon/custom_image_host.cpp` (multipass custom image
host): the static catalog, the per-artifact metadata fetcher, the concurrent
manifest builder, the mutex-guarded manifest cache and the query layer.

Modelling conventions:
* `QString` / `std::string` are modelled as `Str := List Char`, so that the
  Qt character-level operations the source uses (`trimmed`, `endsWith`,
  `split`) can be given directly by their documented semantics and stay
  computable: `qtrimmed` removes leading and trailing whitespace,
  `qt_ends_with` is suffix testing, `qsplit` splits at a separator character
  keeping empty parts. `QStringList` is `List Str`.
* The `URLDownloader` capability is a pure oracle: both of its operations
  may fail with a download-failure condition (`DownloadException` in C++),
  modelled as `Except Str` where the error carries the message.
  `last_modified` already yields the `yyyyMMdd`-formatted date string (the
  Qt date formatting is external to this core).
* The non-owning `const VMImageInfo*` back-references in the alias index are
  modelled as indices into the owning record sequence.
* The catalog `QMap` is modelled as a list of (filename, info) entries; the
  builder's `toStdMap()` iteration in ascending key order is modelled by
  sorting the entries by key (`List.insertionSort`, a computable sort).
* The concurrent fan-out writes to disjoint pre-assigned slots and the join
  loop calls `get()` in slot order, rethrowing the first stored failure; this
  is modelled by building the slots sequentially in the same deterministic
  (sorted) order, with first-error semantics.
* The cache member `custom_image_info` is declared in the header (not part of
  the translated sources) as a standard associative container from remote
  name to owned manifest; `emplace` on any such container inserts only when
  the key is absent. The cache is modelled as an association list with
  exactly those `emplace` semantics.
* The base-class support checks (`check_remote_is_supported`,
  `check_alias_is_supported`, `alias_verifies_image_is_supported`) are
  consumed capabilities; they are modelled as an abstract `SupportOracle`.
-/

namespace CustomImageHost

/-- Qt strings, modelled at the character level. -/
abbrev Str := List Char

/-- Model of `QChar::isSpace` restricted to the ASCII whitespace characters (space,
tab, line feed, vertical tab, form feed, carriage return). -/
def qt_is_space (c : Char) : Bool :=
  c == ' ' || c == '\t' || c == '\n' || c == '\r' ||
    c == Char.ofNat 11 || c == Char.ofNat 12

/-- Model of `QString::trimmed`: the string without leading and trailing
whitespace. -/
def qtrimmed (s : Str) : Str :=
  ((s.dropWhile qt_is_space).reverse.dropWhile qt_is_space).reverse

/-- Model of `QString::endsWith`. -/
def qt_ends_with (s t : Str) : Bool :=
  t.isSuffixOf s

/-- Model of `QString::split(sep)` with the default keep-empty-parts behavior:
the list of maximal separator-free segments, one more than the number of
separator occurrences. -/
def qsplit (sep : Char) : Str → List Str
  | [] => [[]]
  | a :: rest =>
    match qsplit sep rest with
    | [] => [[]]
    | seg :: segs => if a = sep then [] :: seg :: segs else (a :: seg) :: segs

/-- Catalog entry (`CustomImageInfo` in the C++ source): source URL prefix
(modelled under the field name `base_url`), aliases, OS name, release id and
human-readable release string. -/
structure CustomImageInfo where
  base_url : Str
  aliases : List Str
  os : Str
  release : Str
  release_string : Str
deriving Repr, DecidableEq

/-- Transient per-artifact metadata (`BaseImageInfo` in the C++ source). -/
structure BaseImageInfo where
  last_modified : Str
  hash : Str
deriving Repr, DecidableEq

/-- Public manifest record (`mp::VMImageInfo`): aliases, os, release,
release title, supported flag, image location, id (the integrity hash),
stream location, version (the last-modified date), size and verify flag. -/
structure VMImageInfo where
  aliases : List Str
  os : Str
  release : Str
  release_title : Str
  supported : Bool
  image_location : Str
  id : Str
  stream_location : Str
  version : Str
  size : Int
  verify : Bool
deriving Repr, DecidableEq

/-- The value-initialized `mp::VMImageInfo{}`: empty strings and lists,
`false` booleans, zero size. -/
def defaultVMImageInfo : VMImageInfo :=
  ⟨[], [], [], [], false, [], [], [], [], 0, false⟩

instance : Inhabited VMImageInfo := ⟨defaultVMImageInfo⟩

/-- The helper `is_default_constructed` (line 71): compares against `mp::VMImageInfo{}`. -/
def is_default_constructed (image_info : VMImageInfo) : Bool :=
  image_info == defaultVMImageInfo

/-- The downloader capability: `last_modified(url)` (already formatted as the
`yyyyMMdd` string the fetcher produces from it) and `download(url)`; either
may fail with a download-failure condition carrying a message. -/
structure URLDownloader where
  last_modified : Str → Except Str Str
  download : Str → Except Str Str

/-- The checksum-scanning loop of `base_image_info_for` (lines 83-90): walk
the lines; on the first line whose trimmed content ends with the image file
name, take the part before the first space (`line.split(' ').first()`) and
stop; if no line matches, the hash stays empty. -/
def find_hash_line : List Str → Str → Str
  | [], _ => []
  | line :: rest, image_file =>
    if qt_ends_with (qtrimmed line) image_file then (qsplit ' ' line).headD []
    else find_hash_line rest image_file

/-- The fetcher `base_image_info_for` (lines 76-93): fetch the last-modified date of the
image URL, download the checksum listing, split it into lines and scan for
the artifact's hash. -/
def base_image_info_for (url_downloader : URLDownloader) (image_url hash_url image_file : Str) :
    Except Str BaseImageInfo := do
  let last_modified ← url_downloader.last_modified image_url
  let content ← url_downloader.download hash_url
  let sha256_sums := qsplit '\n' content
  return ⟨last_modified, find_hash_line sha256_sums image_file⟩

/-- The keys a record contributes to the alias index when it is not
default-constructed: its id (the hash) followed by its aliases
(lines 103-107). -/
def record_keys (image : VMImageInfo) : List Str :=
  image.id :: image.aliases

/-- One step of `map_aliases_to_vm_info_for`: for a non-default record at
slot `idx`, insert `map[image.id] = ...` and then `map[alias] = ...` for each
alias; a default-constructed record contributes nothing. The map is an
association list where the most recent insertion is at the head, so lookup by
first match realizes the `unordered_map` overwrite semantics. -/
def insert_image_keys (m : List (Str × Nat)) (idx : Nat) (image : VMImageInfo) :
    List (Str × Nat) :=
  if is_default_constructed image then m
  else image.aliases.foldl (fun m a => (a, idx) :: m) ((image.id, idx) :: m)

/-- The scanning loop of `map_aliases_to_vm_info_for`: walk the record
sequence with a running slot index and the accumulated map. -/
def map_aliases_go : Nat → List VMImageInfo → List (Str × Nat) → List (Str × Nat)
  | _, [], m => m
  | n, image :: rest, m => map_aliases_go (n + 1) rest (insert_image_keys m n image)

/-- The index builder `map_aliases_to_vm_info_for` (lines 95-112): scan the completed record
sequence once, skipping default-constructed entries, mapping each record's id
and every alias to (the index of) the record; later entries overwrite. -/
def map_aliases_to_vm_info_for (images : List VMImageInfo) : List (Str × Nat) :=
  map_aliases_go 0 images []

/-- Lookup in the alias index (`unordered_map::find`): the first match in the
association list is the most recent insertion. -/
def lookup_record (m : List (Str × Nat)) (k : Str) : Option Nat :=
  (m.find? (fun p => p.1 == k)).map Prod.snd

/-- The manifest type `mp::CustomManifest`: the owned record sequence (`products`) and the
alias index (`image_records`), back-references modelled as indices. -/
structure CustomManifest where
  products : List VMImageInfo
  image_records : List (Str × Nat)
deriving Repr, DecidableEq

/-- The per-slot task body `fetch_one_image_info_and_write_to_index`
(lines 118-139): build the image and hash URLs, fetch the base info and
assemble the record (supported = true, empty stream location, zero size,
verify = true). -/
def build_record (url_downloader : URLDownloader) (image_info_pair : Str × CustomImageInfo) :
    Except Str VMImageInfo :=
  let image_file_name := image_info_pair.1
  let custom_image_info := image_info_pair.2
  let image_url := custom_image_info.base_url ++ image_file_name
  let hash_url := custom_image_info.base_url ++ "SHA256SUMS".toList
  (base_image_info_for url_downloader image_url hash_url image_file_name).map fun base =>
    ⟨custom_image_info.aliases, custom_image_info.os, custom_image_info.release,
      custom_image_info.release_string, true, image_url, base.hash, [],
      base.last_modified, 0, true⟩

/-- Slot order of the builder: `custom_image_info.toStdMap()` iterates the
`QMap` in ascending key (filename) order; the catalog, given as a list of
entries, is therefore sorted by key before slots are assigned. -/
def sorted_entries (catalog : List (Str × CustomImageInfo)) :
    List (Str × CustomImageInfo) :=
  List.insertionSort (fun a b => a.1 ≤ b.1) catalog

instance : IsTotal (Str × CustomImageInfo) (fun a b => a.1 ≤ b.1) :=
  ⟨fun a b => le_total a.1 b.1⟩

instance : IsTrans (Str × CustomImageInfo) (fun a b => a.1 ≤ b.1) :=
  ⟨fun _ _ _ h1 h2 => le_trans h1 h2⟩

/-- The join phase (lines 151-154): slots are filled by their tasks and
`get()` is called in slot order, so the first failing slot's exception
propagates and all partial results are discarded. Modelled as sequential
first-error collection over the slot-ordered entries. -/
def fetch_records (url_downloader : URLDownloader) :
    List (Str × CustomImageInfo) → Except Str (List VMImageInfo)
  | [] => .ok []
  | entry :: rest =>
    match build_record url_downloader entry with
    | .error msg => .error msg
    | .ok record =>
      match fetch_records url_downloader rest with
      | .error msg => .error msg
      | .ok records => .ok (record :: records)

/-- The builder `full_image_info_for` (lines 114-159): fetch all records concurrently in
pre-assigned sorted slots, join, then build the alias index over the
completed sequence. -/
def full_image_info_for (catalog : List (Str × CustomImageInfo))
    (url_downloader : URLDownloader) : Except Str CustomManifest :=
  (fetch_records url_downloader (sorted_entries catalog)).map fun products =>
    ⟨products, map_aliases_to_vm_info_for products⟩

/-- The one synthetic remote's name (`no_remote`, line 39): the empty string. -/
def no_remote : Str := []

/-- The static x86_64 catalog `multipass_image_info` (lines 56-69). -/
def multipass_image_info_x86_64 : List (Str × CustomImageInfo) :=
  [("ubuntu-core-16-amd64.img.xz".toList,
    ⟨"https://cdimage.ubuntu.com/ubuntu-core/16/stable/current/".toList,
      ["core".toList, "core16".toList], "Ubuntu".toList, "core-16".toList,
      "Core 16".toList⟩),
   ("ubuntu-core-18-amd64.img.xz".toList,
    ⟨"https://cdimage.ubuntu.com/ubuntu-core/18/stable/current/".toList,
      ["core18".toList], "Ubuntu".toList, "core-18".toList, "Core 18".toList⟩),
   ("ubuntu-core-20-amd64.img.xz".toList,
    ⟨"https://cdimage.ubuntu.com/ubuntu-core/20/stable/current/".toList,
      ["core20".toList], "Ubuntu".toList, "core-20".toList, "Core 20".toList⟩),
   ("ubuntu-core-22-amd64.img.xz".toList,
    ⟨"https://cdimage.ubuntu.com/ubuntu-core/22/stable/current/".toList,
      ["core22".toList], "Ubuntu".toList, "core-22".toList, "Core 22".toList⟩)]

/-- The failure conditions of the host surface: a download failure
(`DownloadException`), the unsupported-remote and unsupported-alias failures
raised by the base-class support checks, and the hard "remote unknown or
unreachable" `runtime_error` of `manifest_from` (line 271). -/
inductive HostError where
  | downloadFailure (msg : Str)
  | unsupportedRemote (remote : Str)
  | unsupportedAlias (a : Str) (remote : Str)
  | unknownRemote (remote : Str)
deriving Repr, DecidableEq

/-- The base-class support capabilities, consumed as given:
`check_remote_is_supported` and `check_alias_is_supported` throw when their
predicate fails, and `alias_verifies_image_is_supported` is a boolean
filter. -/
structure SupportOracle where
  remote_supported : Str → Bool
  alias_supported : Str → Str → Bool
  alias_verifies : List Str → Str → Bool

/-- A query: the release (or alias) string and the remote name. -/
structure Query where
  release : Str
  remote_name : Str
deriving Repr, DecidableEq

/-- The mutex-guarded cache member `custom_image_info`: a mapping from remote
name to owned manifest, modelled as an association list (first match wins on
lookup; `emplace` never duplicates a key). -/
structure HostState where
  cache : List (Str × CustomManifest)
deriving Repr, DecidableEq

/-- Cache lookup (`custom_image_info.find(remote_name)`). -/
def lookup_cache (cache : List (Str × CustomManifest)) (remote : Str) :
    Option CustomManifest :=
  (cache.find? (fun p => p.1 == remote)).map Prod.snd

/-- The store step `custom_image_info.emplace(remote, manifest)` (line 245): a standard
associative container's `emplace` inserts only when no entry with that key
exists; an existing entry is left untouched and the new manifest discarded. -/
def emplace (cache : List (Str × CustomManifest)) (remote : Str)
    (manifest : CustomManifest) : List (Str × CustomManifest) :=
  match lookup_cache cache remote with
  | some _ => cache
  | none => (remote, manifest) :: cache

/-- The lookup `CustomVMImageHost::manifest_from` (lines 264-274): check remote support
first (throws `UnsupportedRemoteException` if not), then, under the mutex,
look the remote up in the cache; if absent, throw the hard
"Remote ... is unknown or unreachable." error; otherwise return the cached
manifest. Reading never modifies the cache. -/
def manifest_from (support : SupportOracle) (st : HostState) (remote_name : Str) :
    Except HostError CustomManifest :=
  if support.remote_supported remote_name then
    match lookup_cache st.cache remote_name with
    | some manifest => .ok manifest
    | none => .error (.unknownRemote remote_name)
  else .error (.unsupportedRemote remote_name)

/-- The query `CustomVMImageHost::info_for` (lines 173-185): validate that
(release, remote) is supported (before any lock or cache access), fetch the
remote's manifest, look the release up in the alias index; `std::nullopt`
when the index has no such key, otherwise the record the index entry points
to. -/
def info_for (support : SupportOracle) (st : HostState) (query : Query) :
    Except HostError (Option VMImageInfo) :=
  if support.alias_supported query.release query.remote_name then
    (manifest_from support st query.remote_name).map fun manifest =>
      (lookup_record manifest.image_records query.release).bind fun i =>
        manifest.products.get? i
  else .error (.unsupportedAlias query.release query.remote_name)

/-- The query `CustomVMImageHost::all_info_for` (lines 187-196): zero or one
(remote name, record) pairs, wrapping `info_for`. -/
def all_info_for (support : SupportOracle) (st : HostState) (query : Query) :
    Except HostError (List (Str × VMImageInfo)) :=
  (info_for support st query).map fun
    | some image => [(query.remote_name, image)]
    | none => []

/-- The stub `CustomVMImageHost::info_for_full_hash_impl` (lines 198-201): returns a
default-constructed `VMImageInfo` unconditionally. -/
def info_for_full_hash_impl (_full_hash : Str) : VMImageInfo :=
  defaultVMImageInfo

/-- The query `CustomVMImageHost::all_images_for` (lines 203-216): every record of the
remote's manifest whose aliases verify as supported; the `allow_unsupported`
flag is accepted but unused. -/
def all_images_for (support : SupportOracle) (st : HostState) (remote_name : Str)
    (_allow_unsupported : Bool) : Except HostError (List VMImageInfo) :=
  (manifest_from support st remote_name).map fun manifest =>
    manifest.products.filter fun product =>
      support.alias_verifies product.aliases remote_name

/-- The outcome of a refresh: the new host state and the messages passed to
the `on_manifest_update_failure` failure sink. -/
structure FetchResult where
  state : HostState
  failures : List Str
deriving Repr, DecidableEq

/-- The refresh `CustomVMImageHost::fetch_manifests` (lines 236-256) for the one spec
`(no_remote, multipass_image_info[arch])`: check remote support (an
`UnsupportedRemoteException` is caught and the spec skipped silently), build
the manifest, and on success emplace it under the mutex; a
`DownloadException` is reported to `on_manifest_update_failure` and the
cache left unchanged. The catalog and downloader are parameters of the
model. -/
def fetch_manifests (support : SupportOracle) (catalog : List (Str × CustomImageInfo))
    (url_downloader : URLDownloader) (st : HostState) : FetchResult :=
  if support.remote_supported no_remote then
    match full_image_info_for catalog url_downloader with
    | .ok manifest => ⟨⟨emplace st.cache no_remote manifest⟩, []⟩
    | .error msg => ⟨st, [msg]⟩
  else ⟨st, []⟩

/-- The operation `CustomVMImageHost::clear` (lines 258-262): drop all cache entries under
the mutex. -/
def clear (_st : HostState) : HostState := ⟨[]⟩

/-- Clear followed by a refresh with the given catalog and downloader
responses: one rebuild cycle. -/
def clear_then_fetch (support : SupportOracle) (catalog : List (Str × CustomImageInfo))
    (url_downloader : URLDownloader) (st : HostState) : FetchResult :=
  fetch_manifests support catalog url_downloader (clear st)

/-- Specification of the alias-index contents: scanning the record sequence
from slot `n` on, the index entry for key `k` is the slot of the **last**
non-default record that lists `k` among its keys (later scans overwrite
earlier ones), and absent when no such record exists. -/
def index_of_key (images : List VMImageInfo) (n : Nat) (k : Str) : Option Nat :=
  match images with
  | [] => none
  | image :: rest =>
    match index_of_key rest (n + 1) k with
    | some i => some i
    | none =>
      if is_default_constructed image = false ∧ k ∈ record_keys image then some n else none

/-! Concrete fixtures used as witnesses and counterexamples. -/

/-- A support oracle under which everything is supported. -/
def support_all : SupportOracle :=
  ⟨fun _ => true, fun _ _ => true, fun _ _ => true⟩

/-- A downloader whose every operation succeeds with fixed content. -/
def dl0 : URLDownloader :=
  ⟨fun _ => .ok "20240101".toList, fun _ => .ok "abcd f.img".toList⟩

/-- A downloader whose every operation fails. -/
def dl_fail : URLDownloader :=
  ⟨fun _ => .error "download failed".toList, fun _ => .error "download failed".toList⟩

/-- A one-entry catalog. -/
def entry1 : Str × CustomImageInfo :=
  ("f.img".toList,
    ⟨"u/".toList, ["core".toList], "Ubuntu".toList, "core-16".toList, "Core 16".toList⟩)

/-- The one-entry catalog as a list. -/
def cat1 : List (Str × CustomImageInfo) := [entry1]

/-- The record `dl0` produces for `entry1`. -/
def rec_new : VMImageInfo :=
  ⟨["core".toList], "Ubuntu".toList, "core-16".toList, "Core 16".toList, true,
    "u/f.img".toList, "abcd".toList, [], "20240101".toList, 0, true⟩

/-- The manifest built from `cat1` with `dl0`. -/
def manifest_new : CustomManifest :=
  ⟨[rec_new], [("core".toList, 0), ("abcd".toList, 0)]⟩

/-- An older record for the same artifact (different hash and version). -/
def rec0 : VMImageInfo :=
  ⟨["core".toList], "Ubuntu".toList, "core-16".toList, "Core 16".toList, true,
    "u/f.img".toList, "abc".toList, [], "20231201".toList, 0, true⟩

/-- A previously cached manifest holding `rec0`. -/
def manifest0 : CustomManifest :=
  ⟨[rec0], [("core".toList, 0), ("abc".toList, 0)]⟩

/-- A host state whose cache already holds `manifest0` for the remote. -/
def st0 : HostState := ⟨[(no_remote, manifest0)]⟩

/-- A non-default record with alias "x" and id "idA". -/
def recA : VMImageInfo :=
  ⟨["x".toList], [], [], [], true, [], "idA".toList, [], [], 0, true⟩

/-- A non-default record sharing alias "x", with id "idB". -/
def recB : VMImageInfo :=
  ⟨["x".toList], [], [], [], true, [], "idB".toList, [], [], 0, true⟩

/-! Lemmas about the alias index. -/

/-- Looking up `k` after prepending `(a, idx)` for every `a` in `l`. -/
theorem lookup_foldl_prepend (l : List Str) (idx : Nat) (m : List (Str × Nat))
    (k : Str) :
    lookup_record (l.foldl (fun m a => (a, idx) :: m) m) k =
      if k ∈ l then some idx else lookup_record m k := by
  induction l generalizing m with
  | nil => simp
  | cons a l ih =>
    simp only [List.foldl_cons]
    rw [ih]
    by_cases hl : k ∈ l
    · simp [hl]
    · by_cases ha : k = a
      · simp [hl, ha, lookup_record]
      · simp [hl, ha, lookup_record, List.mem_cons, Ne.symm ha]

/-- Looking up `k` after inserting one record's keys: a non-default record
claims its id and all its aliases at its own slot; everything else falls
through to the previous map. -/
theorem lookup_insert_image_keys (m : List (Str × Nat)) (idx : Nat)
    (image : VMImageInfo) (k : Str) :
    lookup_record (insert_image_keys m idx image) k =
      if is_default_constructed image = false ∧ k ∈ record_keys image then some idx
      else lookup_record m k := by
  unfold insert_image_keys
  by_cases hd : is_default_constructed image
  · simp [hd]
  · rw [if_neg hd, lookup_foldl_prepend]
    simp only [eq_false_of_ne_true (by simpa using hd), record_keys, List.mem_cons,
      true_and]
    by_cases ha : k ∈ image.aliases
    · simp [ha]
    · by_cases hid : k = image.id
      · simp [ha, hid, lookup_record]
      · simp only [ha, hid, lookup_record, or_self, if_false]
        rw [List.find?_cons_of_neg _ (by simp [Ne.symm hid])]

/-- The scanning loop realizes `index_of_key`, falling through to the
initial map when no scanned record claims the key. -/
theorem lookup_map_aliases_go (images : List VMImageInfo) (n : Nat)
    (m : List (Str × Nat)) (k : Str) :
    lookup_record (map_aliases_go n images m) k =
      match index_of_key images n k with
      | some i => some i
      | none => lookup_record m k := by
  induction images generalizing n m with
  | nil => simp [map_aliases_go, index_of_key]
  | cons image rest ih =>
    simp only [map_aliases_go, index_of_key]
    rw [ih]
    cases h : index_of_key rest (n + 1) k with
    | some i => simp
    | none =>
      rw [lookup_insert_image_keys]
      by_cases hc : is_default_constructed image = false ∧ k ∈ record_keys image
      · simp [hc]
      · simp [hc]

/-- The alias index of a scanned sequence is exactly `index_of_key`. -/
theorem lookup_map_aliases (images : List VMImageInfo) (k : Str) :
    lookup_record (map_aliases_to_vm_info_for images) k = index_of_key images 0 k := by
  rw [map_aliases_to_vm_info_for, lookup_map_aliases_go]
  cases index_of_key images 0 k <;> simp [lookup_record]

/-- An index entry resolves to a record present in the scanned sequence; the
record is non-default and lists the key among its own keys. -/
theorem index_of_key_resolves (images : List VMImageInfo) (n : Nat) (k : Str) (i : Nat)
    (h : index_of_key images n k = some i) :
    ∃ j image, i = n + j ∧ images.get? j = some image ∧
      is_default_constructed image = false ∧ k ∈ record_keys image := by
  induction images generalizing n with
  | nil => simp [index_of_key] at h
  | cons image rest ih =>
    rw [index_of_key] at h
    cases hr : index_of_key rest (n + 1) k with
    | some i' =>
      rw [hr] at h
      obtain rfl : i' = i := by simpa using h
      obtain ⟨j, image', hij, hget, hd, hk⟩ := ih (n + 1) hr
      exact ⟨j + 1, image', by omega, by simpa using hget, hd, hk⟩
    | none =>
      rw [hr] at h
      by_cases hc : is_default_constructed image = false ∧ k ∈ record_keys image
      · rw [if_pos hc] at h
        obtain rfl : n = i := by simpa using h
        exact ⟨0, image, by omega, rfl, hc.1, hc.2⟩
      · rw [if_neg hc] at h
        exact absurd h (by simp)

/-- When no record of the sequence claims the key, the index has no entry. -/
theorem index_of_key_none (images : List VMImageInfo) (n : Nat) (k : Str)
    (h : ∀ j image, images.get? j = some image →
      is_default_constructed image = true ∨ k ∉ record_keys image) :
    index_of_key images n k = none := by
  induction images generalizing n with
  | nil => simp [index_of_key]
  | cons image rest ih =>
    rw [index_of_key]
    rw [ih (n + 1) fun j image' hj => h (j + 1) image' (by simpa using hj)]
    rcases h 0 image rfl with hd | hk
    · simp [hd]
    · simp [hk]

/-- The record at slot `j`, when non-default and not overwritten by any
later-scanned record claiming the same key, owns the index entry for each of
its keys. -/
theorem index_of_key_last (images : List VMImageInfo) (n : Nat) (k : Str) (j : Nat)
    (image : VMImageInfo) (hget : images.get? j = some image)
    (hd : is_default_constructed image = false) (hk : k ∈ record_keys image)
    (hlast : ∀ j' image', j < j' → images.get? j' = some image' →
      is_default_constructed image' = true ∨ k ∉ record_keys image') :
    index_of_key images n k = some (n + j) := by
  induction images generalizing n j with
  | nil => simp at hget
  | cons image0 rest ih =>
    rw [index_of_key]
    cases j with
    | zero =>
      obtain rfl : image0 = image := by simpa using hget
      rw [index_of_key_none rest (n + 1) k
        fun j' image' hj' => hlast (j' + 1) image' (by omega) (by simpa using hj')]
      simp [hd, hk]
    | succ j' =>
      rw [ih (n + 1) j' (by simpa using hget)
        fun j'' image' hj'' hg => hlast (j'' + 1) image' (by omega) (by simpa using hg)]
      have harith : n + 1 + j' = n + (j' + 1) := by omega
      simp [harith]

/-! Lemmas about the join phase. -/

/-- If any entry's fetch fails, the whole collection fails. -/
theorem fetch_records_error_of_mem (url_downloader : URLDownloader)
    (entries : List (Str × CustomImageInfo)) (e : Str × CustomImageInfo)
    (msg : Str) (hmem : e ∈ entries)
    (hfail : build_record url_downloader e = .error msg) :
    ∃ msg2, fetch_records url_downloader entries = .error msg2 := by
  induction entries with
  | nil => cases hmem
  | cons a rest ih =>
    rcases List.mem_cons.mp hmem with rfl | hmem'
    · exact ⟨msg, by rw [fetch_records, hfail]⟩
    · cases hb : build_record url_downloader a with
      | error m => exact ⟨m, by rw [fetch_records, hb]⟩
      | ok r =>
        obtain ⟨m2, h2⟩ := ih hmem'
        exact ⟨m2, by rw [fetch_records, hb, h2]⟩

/-- A successful collection has one record per entry, each slot holding
exactly the record its entry's fetch produced. -/
theorem fetch_records_ok_slots (url_downloader : URLDownloader) :
    ∀ (entries : List (Str × CustomImageInfo)) (products : List VMImageInfo),
    fetch_records url_downloader entries = .ok products →
    products.length = entries.length ∧
    ∀ i entry, entries.get? i = some entry →
      ∃ record, products.get? i = some record ∧
        build_record url_downloader entry = .ok record := by
  intro entries
  induction entries with
  | nil =>
    intro products h
    rw [fetch_records] at h
    obtain rfl : [] = products := by simpa using h
    exact ⟨rfl, by intro i entry h'; simp at h'⟩
  | cons a rest ih =>
    intro products h
    rw [fetch_records] at h
    cases hb : build_record url_downloader a with
    | error m => rw [hb] at h; exact absurd h (by simp)
    | ok r =>
      rw [hb] at h
      cases hr : fetch_records url_downloader rest with
      | error m => rw [hr] at h; exact absurd h (by simp)
      | ok rs =>
        rw [hr] at h
        obtain rfl : r :: rs = products := by simpa using h
        obtain ⟨hlen, hslots⟩ := ih rs hr
        refine ⟨by simpa using hlen, ?_⟩
        intro i entry hi
        cases i with
        | zero =>
          obtain rfl : a = entry := by simpa using hi
          exact ⟨r, rfl, hb⟩
        | succ i' =>
          obtain ⟨record, h1, h2⟩ := hslots i' entry (by simpa using hi)
          exact ⟨record, by simpa using h1, h2⟩

/-! The claims. -/

/-- C6: given the downloaded checksum listing split into lines, the fetcher
selects the first line whose whitespace-trimmed content ends with the
artifact filename and takes as the hash the part of that line before its
first space; if no line matches, the hash is the empty string (and the scan
is total — no error is raised). -/
theorem C6_hash_extraction (lines : List Str) (image_file : Str) :
    find_hash_line lines image_file =
      ((lines.find? fun l => qt_ends_with (qtrimmed l) image_file).map
        fun l => (qsplit ' ' l).headD []).getD [] := by
  induction lines with
  | nil => rfl
  | cons l rest ih =>
    rw [find_hash_line]
    by_cases h : qt_ends_with (qtrimmed l) image_file = true
    · rw [if_pos h,
        List.find?_cons_of_pos (p := fun s => qt_ends_with (qtrimmed s) image_file) _ h]
      rfl
    · rw [if_neg h,
        List.find?_cons_of_neg (p := fun s => qt_ends_with (qtrimmed s) image_file) _
          (by simpa using h), ih]

/-- C7: a manifest lookup for a remote that passes the remote-support check
but has no cache entry fails hard with the "remote unknown or unreachable"
condition, which is distinct from the unsupported-remote failure of the
support check; the lookup reads the cache and leaves it unchanged (the
operation takes the state read-only). -/
theorem C7_unknown_remote (support : SupportOracle) (st : HostState) (remote : Str)
    (hsup : support.remote_supported remote = true)
    (habs : lookup_cache st.cache remote = none) :
    manifest_from support st remote = .error (.unknownRemote remote) ∧
      HostError.unknownRemote remote ≠ HostError.unsupportedRemote remote := by
  constructor
  · rw [manifest_from, if_pos hsup, habs]
  · intro h
    cases h

/-- C7 witness: the empty cache with an all-supporting oracle. -/
theorem C7_unknown_remote_witness :
    support_all.remote_supported no_remote = true ∧
      lookup_cache (HostState.mk []).cache no_remote = none ∧
      manifest_from support_all ⟨[]⟩ no_remote = .error (.unknownRemote no_remote) :=
  ⟨rfl, rfl, (C7_unknown_remote support_all ⟨[]⟩ no_remote rfl rfl).1⟩

/-- C8: clear followed by refresh, with the catalog and the downloader
responses unchanged, is idempotent — running a second clear-then-refresh
cycle yields a state equal by value to the first cycle's, so the cached
record set equals the one it replaces. -/
theorem C8_clear_then_fetch_idempotent (support : SupportOracle)
    (catalog : List (Str × CustomImageInfo)) (url_downloader : URLDownloader)
    (st : HostState) :
    (clear_then_fetch support catalog url_downloader
        (clear_then_fetch support catalog url_downloader st).state).state =
      (clear_then_fetch support catalog url_downloader st).state := rfl

/-- C10: `info_for_full_hash_impl` returns a default-constructed record for
every input hash: it never consults the cache (it takes no cache state at
all), never matches any stored record, and never fails. -/
theorem C10_full_hash_default (full_hash : Str) :
    info_for_full_hash_impl full_hash = defaultVMImageInfo ∧
      is_default_constructed (info_for_full_hash_impl full_hash) = true := by
  exact ⟨rfl, by simp [info_for_full_hash_impl, is_default_constructed]⟩

/-- C3: `info_for` validates the (release, remote) combination first — when
the check fails it fails with the unsupported-alias condition for every cache
state, i.e. before consulting the cache; when the check passes and the
remote's manifest exists, it returns the record the alias index maps the
release to, and an empty optional (not an error) when the index has no such
key. -/
theorem C3_info_for_semantics (support : SupportOracle) (st : HostState) (query : Query) :
    (support.alias_supported query.release query.remote_name = false →
      ∀ st' : HostState, info_for support st' query =
        .error (.unsupportedAlias query.release query.remote_name)) ∧
    (∀ manifest, support.alias_supported query.release query.remote_name = true →
      manifest_from support st query.remote_name = .ok manifest →
      (lookup_record manifest.image_records query.release = none →
        info_for support st query = .ok none) ∧
      (∀ i (hi : i < manifest.products.length),
        lookup_record manifest.image_records query.release = some i →
        info_for support st query = .ok (some (manifest.products.get ⟨i, hi⟩)))) := by
  constructor
  · intro hbad st'
    rw [info_for, if_neg (by simp [hbad])]
  · intro manifest hok hman
    constructor
    · intro hnone
      rw [info_for, if_pos hok, hman]
      simp [Except.map, hnone]
    · intro i hi hsome
      rw [info_for, if_pos hok, hman]
      simp [Except.map, hsome, List.getElem?_eq_getElem hi]

/-- C3 witness: with everything supported and `manifest0` cached, the query
for alias "core" resolves to `rec0`. -/
theorem C3_info_for_semantics_witness :
    manifest_from support_all st0 no_remote = .ok manifest0 ∧
      lookup_record manifest0.image_records "core".toList = some 0 ∧
      info_for support_all st0 ⟨"core".toList, no_remote⟩ = .ok (some rec0) := by
  refine ⟨rfl, rfl, ?_⟩
  have h := ((C3_info_for_semantics support_all st0 ⟨"core".toList, no_remote⟩).2 manifest0
    rfl rfl).2 0 (by decide) rfl
  simpa using h

/-- C5: `all_images_for` returns the same result whether `allow_unsupported`
is true or false, for every support oracle, cache state and remote; and when
the remote's manifest exists, the result is exactly the manifest's records
whose alias set verifies as supported for that remote. -/
theorem C5_allow_unsupported_noop (support : SupportOracle) (st : HostState)
    (remote : Str) :
    (∀ b₁ b₂ : Bool,
      all_images_for support st remote b₁ = all_images_for support st remote b₂) ∧
    (∀ manifest, manifest_from support st remote = .ok manifest →
      all_images_for support st remote true =
        .ok (manifest.products.filter fun p => support.alias_verifies p.aliases remote)) := by
  refine ⟨fun _ _ => rfl, fun manifest h => ?_⟩
  rw [all_images_for, h]
  rfl

/-- C5 witness: on the cached `manifest0` the filter keeps every record under
the all-supporting oracle, and both flag values agree. -/
theorem C5_allow_unsupported_noop_witness :
    manifest_from support_all st0 no_remote = .ok manifest0 ∧
      all_images_for support_all st0 no_remote true =
        .ok (manifest0.products.filter fun p => support_all.alias_verifies p.aliases no_remote) ∧
      all_images_for support_all st0 no_remote true =
        all_images_for support_all st0 no_remote false :=
  ⟨rfl, (C5_allow_unsupported_noop support_all st0 no_remote).2 manifest0 rfl,
    (C5_allow_unsupported_noop support_all st0 no_remote).1 true false⟩

/-- C1 counterexample: with `manifest0` already cached for the remote, a
refresh that successfully builds the different `manifest_new` does **not**
overwrite the entry — `emplace` inserts only when the key is absent, so the
subsequent lookup still returns the previously cached manifest, not the newly
built one. -/
theorem C1_store_counterexample :
    full_image_info_for cat1 dl0 = .ok manifest_new ∧
      lookup_cache st0.cache no_remote = some manifest0 ∧
      lookup_cache (fetch_manifests support_all cat1 dl0 st0).state.cache no_remote =
        some manifest0 ∧
      manifest0 ≠ manifest_new :=
  ⟨rfl, rfl, rfl, by decide⟩

/-- C1 amended: storing a successfully built manifest inserts it when the
remote has no cache entry (so a lookup then returns the newly built
manifest), but when an entry already exists `emplace` leaves the previous
manifest in place and the newly built one is discarded. -/
theorem C1_store_semantics (support : SupportOracle)
    (catalog : List (Str × CustomImageInfo)) (url_downloader : URLDownloader)
    (st : HostState) (manifest : CustomManifest)
    (hsup : support.remote_supported no_remote = true)
    (hbuild : full_image_info_for catalog url_downloader = .ok manifest) :
    (lookup_cache st.cache no_remote = none →
      lookup_cache (fetch_manifests support catalog url_downloader st).state.cache
        no_remote = some manifest) ∧
    (∀ old, lookup_cache st.cache no_remote = some old →
      lookup_cache (fetch_manifests support catalog url_downloader st).state.cache
        no_remote = some old) := by
  constructor
  · intro habs
    rw [fetch_manifests, if_pos hsup, hbuild]
    simp only [emplace, habs]
    simp [lookup_cache]
  · intro old hold
    rw [fetch_manifests, if_pos hsup, hbuild]
    simp only [emplace, hold]

/-- C1 witness: refreshing into an empty cache makes the lookup return the
newly built manifest; refreshing over `st0` keeps `manifest0`. -/
theorem C1_store_semantics_witness :
    full_image_info_for cat1 dl0 = .ok manifest_new ∧
      lookup_cache (HostState.mk []).cache no_remote = none ∧
      lookup_cache (fetch_manifests support_all cat1 dl0 ⟨[]⟩).state.cache no_remote =
        some manifest_new ∧
      lookup_cache (fetch_manifests support_all cat1 dl0 st0).state.cache no_remote =
        some manifest0 :=
  ⟨rfl, rfl,
    (C1_store_semantics support_all cat1 dl0 ⟨[]⟩ manifest_new rfl rfl).1 rfl,
    (C1_store_semantics support_all cat1 dl0 st0 manifest_new rfl rfl).2 manifest0 rfl⟩

/-- C2: if any single per-artifact fetch fails with a download failure, the
whole manifest build for that remote fails (partial slots are discarded —
nothing is stored), the failure is reported through the
`on_manifest_update_failure` sink rather than propagated, and the cache is
left exactly as it was. -/
theorem C2_download_failure_isolation (support : SupportOracle)
    (catalog : List (Str × CustomImageInfo)) (url_downloader : URLDownloader)
    (st : HostState) (e : Str × CustomImageInfo) (msg : Str)
    (hsup : support.remote_supported no_remote = true)
    (hmem : e ∈ sorted_entries catalog)
    (hfail : build_record url_downloader e = .error msg) :
    ∃ msg2, full_image_info_for catalog url_downloader = .error msg2 ∧
      (fetch_manifests support catalog url_downloader st).state = st ∧
      (fetch_manifests support catalog url_downloader st).failures = [msg2] := by
  obtain ⟨msg2, h2⟩ :=
    fetch_records_error_of_mem url_downloader (sorted_entries catalog) e msg hmem hfail
  have hfull : full_image_info_for catalog url_downloader = .error msg2 := by
    rw [full_image_info_for, h2]
    rfl
  refine ⟨msg2, hfull, ?_, ?_⟩ <;> rw [fetch_manifests, if_pos hsup, hfull]

/-- C2 witness: the failing downloader on the one-entry catalog, starting
from the state caching `manifest0`: the cache stays as it was and the sink
receives the failure message. -/
theorem C2_download_failure_isolation_witness :
    entry1 ∈ sorted_entries cat1 ∧
      build_record dl_fail entry1 = .error "download failed".toList ∧
      ∃ msg2, full_image_info_for cat1 dl_fail = .error msg2 ∧
        (fetch_manifests support_all cat1 dl_fail st0).state = st0 ∧
        (fetch_manifests support_all cat1 dl_fail st0).failures = [msg2] :=
  ⟨by decide, rfl,
    C2_download_failure_isolation support_all cat1 dl_fail st0 entry1
      "download failed".toList rfl (by decide) rfl⟩

/-- C4 counterexample: two non-default records sharing alias "x" — the
earlier-scanned record `recA` is **not** reachable under its alias "x": the
index maps "x" to the later record's slot, so "every non-default record is
reachable under each of its alias strings" fails as universally stated. -/
theorem C4_alias_index_counterexample :
    is_default_constructed recA = false ∧
      "x".toList ∈ recA.aliases ∧
      [recA, recB].get? 0 = some recA ∧
      lookup_record (map_aliases_to_vm_info_for [recA, recB]) "x".toList = some 1 ∧
      [recA, recB].get? 1 = some recB ∧ recB ≠ recA := by
  decide

/-- C4 amended: every key of the alias index resolves to a record present in
the sequence, that record is non-default and itself owns the key (so the id
route and the alias routes that remain yield the same record); a non-default
record is reachable under its id and each of its aliases except the keys a
later-scanned non-default record also claims, for which the later record's
entry wins (last-write-wins); default-constructed records contribute no keys
(their slot is never the target of any index entry) while still occupying
their slot in the sequence. -/
theorem C4_alias_index_invariant (images : List VMImageInfo) :
    (∀ k i, lookup_record (map_aliases_to_vm_info_for images) k = some i →
      ∃ image, images.get? i = some image ∧ is_default_constructed image = false ∧
        k ∈ record_keys image) ∧
    (∀ i image, images.get? i = some image → is_default_constructed image = false →
      ∀ k, k ∈ record_keys image →
      (∀ j image', i < j → images.get? j = some image' →
        is_default_constructed image' = true ∨ k ∉ record_keys image') →
      lookup_record (map_aliases_to_vm_info_for images) k = some i) ∧
    (∀ i image k, images.get? i = some image → is_default_constructed image = true →
      lookup_record (map_aliases_to_vm_info_for images) k ≠ some i) := by
  refine ⟨?_, ?_, ?_⟩
  · intro k i h
    rw [lookup_map_aliases] at h
    obtain ⟨j, image, hij, hget, hd, hk⟩ := index_of_key_resolves images 0 k i h
    exact ⟨image, by simpa [hij] using hget, hd, hk⟩
  · intro i image hget hd k hk hlast
    rw [lookup_map_aliases]
    simpa using index_of_key_last images 0 k i image hget hd hk hlast
  · intro i image k hget hdef h
    rw [lookup_map_aliases] at h
    obtain ⟨j, image', hij, hget', hd', hk'⟩ := index_of_key_resolves images 0 k i h
    rw [show j = i by omega, hget] at hget'
    obtain rfl : image = image' := by simpa using hget'
    rw [hdef] at hd'
    cases hd'

/-- C4 witness: on the shared-alias pair the later record owns the "x"
entry (last-write-wins); with a default record in slot 1, its id-free slot is
never the target of any key, while "idA" still reaches slot 0. -/
theorem C4_alias_index_invariant_witness :
    lookup_record (map_aliases_to_vm_info_for [recA, recB]) "x".toList = some 1 ∧
      lookup_record (map_aliases_to_vm_info_for [recA, defaultVMImageInfo])
        "idA".toList = some 0 ∧
      ∀ k, lookup_record (map_aliases_to_vm_info_for [recA, defaultVMImageInfo]) k ≠
        some 1 := by
  refine ⟨?_, ?_, ?_⟩
  · refine (C4_alias_index_invariant [recA, recB]).2.1 1 recB rfl (by decide)
      "x".toList (by decide) ?_
    intro j image' hj hget
    rcases j with _ | _ | j
    · omega
    · omega
    · simp at hget
  · refine (C4_alias_index_invariant [recA, defaultVMImageInfo]).2.1 0 recA rfl
      (by decide) "idA".toList (by decide) ?_
    intro j image' hj hget
    rcases j with _ | _ | j
    · omega
    · obtain rfl : defaultVMImageInfo = image' := by simpa using hget
      exact Or.inl (by decide)
    · simp at hget
  · intro k
    exact (C4_alias_index_invariant [recA, defaultVMImageInfo]).2.2 1 defaultVMImageInfo
      k rfl (by decide)

/-- C9: a built manifest's record slots follow the deterministic order
obtained by sorting the catalog's entries by filename: the slot-ordered entry
list is sorted by key and a permutation of the catalog, there is one slot per
entry, and the record at slot `i` is exactly the one fetched for the entry
with the i-th smallest filename (independent of task completion order, which
the pre-assigned disjoint slots make irrelevant). -/
theorem C9_sorted_slot_assignment (catalog : List (Str × CustomImageInfo))
    (url_downloader : URLDownloader) (manifest : CustomManifest)
    (h : full_image_info_for catalog url_downloader = .ok manifest) :
    ((sorted_entries catalog).map Prod.fst).Sorted (· ≤ ·) ∧
      (sorted_entries catalog).Perm catalog ∧
      manifest.products.length = (sorted_entries catalog).length ∧
      (∀ i entry, (sorted_entries catalog).get? i = some entry →
        ∃ record, manifest.products.get? i = some record ∧
          build_record url_downloader entry = .ok record) := by
  have hsorted : ((sorted_entries catalog).map Prod.fst).Sorted (· ≤ ·) := by
    have h1 := List.sorted_insertionSort (fun (a b : Str × CustomImageInfo) => a.1 ≤ b.1)
      catalog
    exact List.Pairwise.map Prod.fst (fun a b hab => hab) h1
  have hperm : (sorted_entries catalog).Perm catalog := List.perm_insertionSort _ catalog
  rw [full_image_info_for] at h
  cases hr : fetch_records url_downloader (sorted_entries catalog) with
  | error m =>
    rw [hr] at h
    exact absurd h (by simp [Except.map])
  | ok products =>
    rw [hr] at h
    have hm : CustomManifest.mk products (map_aliases_to_vm_info_for products) = manifest := by
      simpa [Except.map] using h
    obtain ⟨hlen, hslots⟩ := fetch_records_ok_slots url_downloader _ products hr
    rw [← hm]
    exact ⟨hsorted, hperm, hlen, hslots⟩

/-- C9 witness: the one-entry catalog built with the succeeding downloader. -/
theorem C9_sorted_slot_assignment_witness :
    full_image_info_for cat1 dl0 = .ok manifest_new ∧
      ((sorted_entries cat1).map Prod.fst).Sorted (· ≤ ·) ∧
      (sorted_entries cat1).Perm cat1 :=
  ⟨rfl, (C9_sorted_slot_assignment cat1 dl0 manifest_new rfl).1,
    (C9_sorted_slot_assignment cat1 dl0 manifest_new rfl).2.1⟩

end CustomImageHost
